import Mathlib

/-!
Verification of the page/region image-extraction engine of the catalog
data-extraction app. The definitions below are shallow embeddings of the
TypeScript source: `utils/pageParser.ts` (CMYK conversion, text-suppressed
high-quality cropping, native image extraction), `services/geminiService.ts`
(the AUTH_ERROR signalling) and the batch loop `handleStartProcessing` of
`App.tsx`. JavaScript numbers are modelled as exact rationals, byte buffers
as lists of naturals, and the mutable batch loop as explicit state passing
over an event trace.
-/

/-- Model of `Uint8ClampedArray` element assignment of an integer value: clamp into
the byte range `[0, 255]`. -/
def clampByte (z : ℤ) : ℕ := (max 0 (min 255 z)).toNat

/-- Model of `Math.round` of JavaScript on a (model) rational: round half up. -/
def jsRound (q : ℚ) : ℤ := ⌊q + 1/2⌋

/-- Embedding of `convertCMYKtoRGB` (pageParser lines 16-39): walk the raw
buffer four bytes at a time; each CMYK channel is the raw byte divided by
255, and the output pixel is `R = 255(1-c)(1-k)`, `G = 255(1-m)(1-k)`,
`B = 255(1-y)(1-k)`, `A = 255`, each colour rounded and stored through the
clamped byte array. A trailing group of fewer than 4 bytes (the loop still
runs because `i < cmykData.length`) reads the missing channels — always
including `k` — as `undefined`, so the three colours are `NaN`, which the
clamped store turns into 0; the alpha write at `j+3` then lands past the
output's end (its length `pixelCount*4` recovers the input length exactly
in floats) and is silently dropped. Hence a ragged buffer converts without
throwing, its partial group becoming that many zero bytes. -/
def convertCMYKtoRGB : List ℕ → List ℕ
  | cB :: mB :: yB :: kB :: rest =>
    let c : ℚ := (cB : ℚ) / 255
    let m : ℚ := (mB : ℚ) / 255
    let y : ℚ := (yB : ℚ) / 255
    let k : ℚ := (kB : ℚ) / 255
    let r : ℚ := 255 * (1 - c) * (1 - k)
    let g : ℚ := 255 * (1 - m) * (1 - k)
    let b : ℚ := 255 * (1 - y) * (1 - k)
    clampByte (jsRound r) :: clampByte (jsRound g) :: clampByte (jsRound b) :: 255 ::
      convertCMYKtoRGB rest
  | rest => List.replicate rest.length 0

/-- The pdf.js operator codes the engine distinguishes: the eight
text-related operators collected into `textOps` in `renderHighQualityCrop`
(pageParser lines 145-154), the image-paint operator inspected by
`extractBestImageForBox`, and everything else by numeric code. -/
inductive PdfOp where
  | showText
  | showSpacedText
  | nextLineShowText
  | nextLineSetSpacingShowText
  | beginText
  | endText
  | setCharSpacing
  | setWordSpacing
  | paintImageXObject
  | other (code : ℕ)
deriving DecidableEq, Repr

/-- Membership in the `textOps` set of `renderHighQualityCrop`. -/
def isTextOp : PdfOp → Bool
  | .showText => true
  | .showSpacedText => true
  | .nextLineShowText => true
  | .nextLineSetSpacingShowText => true
  | .beginText => true
  | .endText => true
  | .setCharSpacing => true
  | .setWordSpacing => true
  | _ => false

/-- A pdf.js operator list as returned by `page.getOperatorList()`:
parallel arrays of operator codes and operand payloads (operands modelled
as opaque lists of naturals). -/
structure OperatorList where
  fnArray : List PdfOp
  argsArray : List (List ℕ)
deriving DecidableEq, Repr

/-- Embedding of the suppression loop of `renderHighQualityCrop`
(pageParser lines 156-160): `for i: if textOps.has(fnArray[i])
argsArray[i] = []`. The value returned is the state of the scanned
operator-list object after the loop has run (the loop writes into
`opList.argsArray` itself). -/
def suppressTextArgs (ol : OperatorList) : OperatorList :=
  { fnArray := ol.fnArray
    argsArray :=
      List.zipWith (fun fn args => if isTextOp fn then [] else args) ol.fnArray ol.argsArray }

lemma suppress_getD (fns : List PdfOp) :
    ∀ (args : List (List ℕ)) (i : ℕ) (d : List ℕ) (dop : PdfOp),
      i < fns.length → args.length = fns.length →
      (List.zipWith (fun fn args => if isTextOp fn then [] else args) fns args).getD i d
        = if isTextOp (fns.getD i dop) then [] else args.getD i d := by
  induction fns with
  | nil =>
    intro args i d dop hi _
    simp at hi
  | cons fn fns ih =>
    intro args i d dop hi hlen
    cases args with
    | nil => simp at hlen
    | cons a args =>
      cases i with
      | zero => simp
      | succ n =>
        simp only [List.zipWith_cons_cons, List.getD_cons_succ]
        exact ih args n d dop (by simpa using hi) (by simpa using hlen)

/-- C5: for every CMYK buffer, the conversion works pixel by pixel, with
`R = 255(1-C)(1-K)`, `G = 255(1-M)(1-K)`, `B = 255(1-Y)(1-K)`, `A = 255`
where each channel is the raw byte over 255 and the result is rounded to
the nearest integer; in particular raw `(0,0,0,0)` maps to white
`(255,255,255)`, raw `(0,0,0,255)` maps to black `(0,0,0)`, and raw
`(255,0,0,0)` maps to cyan `(0,255,255)`. -/
theorem convertCMYKtoRGB_spec :
    (∀ cB mB yB kB rest, convertCMYKtoRGB (cB :: mB :: yB :: kB :: rest)
      = clampByte (jsRound (255 * (1 - (cB : ℚ) / 255) * (1 - (kB : ℚ) / 255)))
        :: clampByte (jsRound (255 * (1 - (mB : ℚ) / 255) * (1 - (kB : ℚ) / 255)))
        :: clampByte (jsRound (255 * (1 - (yB : ℚ) / 255) * (1 - (kB : ℚ) / 255)))
        :: 255 :: convertCMYKtoRGB rest)
    ∧ convertCMYKtoRGB [0, 0, 0, 0] = [255, 255, 255, 255]
    ∧ convertCMYKtoRGB [0, 0, 0, 255] = [0, 0, 0, 255]
    ∧ convertCMYKtoRGB [255, 0, 0, 0] = [0, 255, 255, 255] := by
  refine ⟨fun cB mB yB kB rest => rfl, ?_, ?_, ?_⟩ <;>
    · simp only [convertCMYKtoRGB, clampByte, jsRound]
      norm_num
      try decide

/-- C4: the text-suppression transformation preserves the operation-list
length and the operator sequence; an operation whose operator is one of
the eight text operators has its operand list replaced by the empty list,
and every other operation keeps its operands unchanged. -/
theorem suppressTextArgs_preserves (ol : OperatorList)
    (hlen : ol.argsArray.length = ol.fnArray.length)
    (i : ℕ) (d : List ℕ) (dop : PdfOp) (hi : i < ol.fnArray.length) :
    (suppressTextArgs ol).fnArray = ol.fnArray ∧
    (suppressTextArgs ol).argsArray.length = ol.argsArray.length ∧
    (isTextOp (ol.fnArray.getD i dop) = true →
      (suppressTextArgs ol).argsArray.getD i d = []) ∧
    (isTextOp (ol.fnArray.getD i dop) = false →
      (suppressTextArgs ol).argsArray.getD i d = ol.argsArray.getD i d) := by
  refine ⟨rfl, ?_, ?_, ?_⟩
  · simp [suppressTextArgs, List.length_zipWith, hlen]
  · intro h
    rw [suppressTextArgs, suppress_getD ol.fnArray ol.argsArray i d dop hi hlen, h]
    simp
  · intro h
    rw [suppressTextArgs, suppress_getD ol.fnArray ol.argsArray i d dop hi hlen, h]
    simp

/-- Witness for C4 at a concrete operator list: a `showText` operation
loses its operands, a non-text operation keeps them. -/
theorem suppressTextArgs_preserves_witness :
    (suppressTextArgs ⟨[PdfOp.showText, PdfOp.other 3], [[1, 2], [7]]⟩).fnArray
        = [PdfOp.showText, PdfOp.other 3] ∧
    (suppressTextArgs ⟨[PdfOp.showText, PdfOp.other 3], [[1, 2], [7]]⟩).argsArray.length
        = ([[1, 2], [7]] : List (List ℕ)).length ∧
    (isTextOp (([PdfOp.showText, PdfOp.other 3] : List PdfOp).getD 0 (PdfOp.other 0)) = true →
      (suppressTextArgs ⟨[PdfOp.showText, PdfOp.other 3], [[1, 2], [7]]⟩).argsArray.getD 0 [] = []) ∧
    (isTextOp (([PdfOp.showText, PdfOp.other 3] : List PdfOp).getD 0 (PdfOp.other 0)) = false →
      (suppressTextArgs ⟨[PdfOp.showText, PdfOp.other 3], [[1, 2], [7]]⟩).argsArray.getD 0 []
        = ([[1, 2], [7]] : List (List ℕ)).getD 0 []) :=
  suppressTextArgs_preserves ⟨[PdfOp.showText, PdfOp.other 3], [[1, 2], [7]]⟩ (by decide)
    0 [] (PdfOp.other 0) (by decide)

/-- C7 counterexample: the suppression step does not leave the scanned
operator list unchanged — running `renderHighQualityCrop`'s loop over a
scan holding a `showText` operation with operand `[5]` leaves the scanned
object with an empty operand list, so the original operand is not
retained. -/
theorem suppressTextArgs_mutates_counterexample :
    suppressTextArgs ⟨[PdfOp.showText], [[5]]⟩ ≠ ⟨[PdfOp.showText], [[5]]⟩ := by
  decide

lemma zipWith_suppress_eq_iff (fns : List PdfOp) :
    ∀ args : List (List ℕ), args.length = fns.length →
      (List.zipWith (fun fn args => if isTextOp fn then [] else args) fns args = args ↔
        ∀ i, i < fns.length →
          isTextOp (fns.getD i (PdfOp.other 0)) = true → args.getD i [] = []) := by
  induction fns with
  | nil =>
    intro args hlen
    simp only [List.length_nil] at hlen
    rw [List.length_eq_zero] at hlen
    subst hlen
    simp
  | cons fn fns ih =>
    intro args hlen
    cases args with
    | nil => simp at hlen
    | cons a args =>
      simp only [List.zipWith_cons_cons, List.cons.injEq]
      rw [ih args (by simpa using hlen)]
      constructor
      · rintro ⟨h0, hrest⟩ i hi ht
        cases i with
        | zero =>
          simp only [List.getD_cons_zero] at ht ⊢
          rw [ht] at h0
          simpa using h0.symm
        | succ n =>
          exact hrest n (by simpa using hi) (by simpa using ht)
      · intro h
        constructor
        · by_cases ht : isTextOp fn = true
          · have h0 := h 0 (by simp) (by simpa using ht)
            simp only [List.getD_cons_zero] at h0
            simp [ht, h0]
          · simp [ht]
        · intro n hn htn
          exact h (n + 1) (by simpa using hn) (by simpa using htn)

/-- C7 amended: the suppression loop overwrites the scanned operator list
in place; the scanned object is left unchanged exactly when every text
operation in the scan already carried an empty operand list — whenever a
text operation carries operands, a later consumer of the same scan object
observes the cleared operands, not the originals. -/
theorem suppressTextArgs_inPlace_iff (ol : OperatorList)
    (hlen : ol.argsArray.length = ol.fnArray.length) :
    suppressTextArgs ol = ol ↔
      (∀ i, i < ol.fnArray.length →
        isTextOp (ol.fnArray.getD i (PdfOp.other 0)) = true →
          ol.argsArray.getD i [] = []) := by
  cases ol with
  | mk fns args =>
    simp only [suppressTextArgs, OperatorList.mk.injEq, true_and]
    exact zipWith_suppress_eq_iff fns args hlen

/-- Witness for the amended C7 at a concrete operator list: a scan whose
only text operation has no operands is left fixed by the loop. -/
theorem suppressTextArgs_inPlace_iff_witness :
    suppressTextArgs ⟨[PdfOp.showText, PdfOp.other 1], [[], [9]]⟩
        = ⟨[PdfOp.showText, PdfOp.other 1], [[], [9]]⟩ ↔
      (∀ i, i < ([PdfOp.showText, PdfOp.other 1] : List PdfOp).length →
        isTextOp (([PdfOp.showText, PdfOp.other 1] : List PdfOp).getD i (PdfOp.other 0)) = true →
          ([[], [9]] : List (List ℕ)).getD i [] = []) :=
  suppressTextArgs_inPlace_iff ⟨[PdfOp.showText, PdfOp.other 1], [[], [9]]⟩ (by decide)

/-- A normalized bounding box as delivered by the recognition step:
`box_2d = [ymin, xmin, ymax, xmax]` on the 0-1000 scale (pageParser
lines 101-104 and 200-203 read the components in this order). -/
structure Box where
  ymin : ℚ
  xmin : ℚ
  ymax : ℚ
  xmax : ℚ
deriving DecidableEq, Repr

/-- Clamping `Math.max(0, Math.min(1000, v))`: coordinate clamping of
`renderHighQualityCrop` (pageParser lines 101-104). -/
def clamp1000 (v : ℚ) : ℚ := max 0 (min 1000 v)

/-- The crop width `cropWidth = ((xmax - xmin) / 1000) * unscaledViewport.width`
(pageParser line 110), on the clamped coordinates. -/
def cropWidthOf (pageW : ℚ) (b : Box) : ℚ :=
  (clamp1000 b.xmax - clamp1000 b.xmin) / 1000 * pageW

/-- The crop height `cropHeight = ((ymax - ymin) / 1000) * unscaledViewport.height`
(pageParser line 111), on the clamped coordinates. -/
def cropHeightOf (pageH : ℚ) (b : Box) : ℚ :=
  (clamp1000 b.ymax - clamp1000 b.ymin) / 1000 * pageH

/-- The safety cap on canvas dimensions (pageParser line 116). -/
def MAX_CANVAS_DIM : ℚ := 4096

/-- The two sequential scale caps of `renderHighQualityCrop` (pageParser
lines 117-124): start from the requested scale, cap against the crop
width, then cap the result against the crop height. -/
def finalScaleOf (pageW pageH : ℚ) (b : Box) (scale : ℚ) : ℚ :=
  let cropWidth := cropWidthOf pageW b
  let cropHeight := cropHeightOf pageH b
  let f1 := if MAX_CANVAS_DIM < cropWidth * scale then MAX_CANVAS_DIM / cropWidth else scale
  if MAX_CANVAS_DIM < cropHeight * f1 then MAX_CANVAS_DIM / cropHeight else f1

/-- Observable outcome of `renderHighQualityCrop`: the returned value
(`some` of the encoded PNG's pixel dimensions, or the `null` sentinel),
whether an output canvas was allocated, and whether `page.render` was
invoked. -/
structure CropOutcome where
  result : Option (ℤ × ℤ)
  canvasAllocated : Bool
  rendered : Bool
deriving DecidableEq, Repr

/-- Embedding of `renderHighQualityCrop` (pageParser lines 92-183).
`pageOk` models `getPage`/`getOperatorList` succeeding, `ctxOk` the 2d
canvas context being available, `renderOk` the `page.render` promise
resolving; any thrown error is caught by the surrounding `try` and mapped
to the `null` sentinel. The canvas is sized
`floor(cropWidth*finalScale) × floor(cropHeight*finalScale)` (lines
130-131) and the encoded PNG has exactly the canvas dimensions. -/
def renderHighQualityCrop (pageW pageH : ℚ) (b : Box) (scale : ℚ)
    (pageOk ctxOk renderOk : Bool) : CropOutcome :=
  if pageOk = true then
    let cropWidth := cropWidthOf pageW b
    let cropHeight := cropHeightOf pageH b
    if cropWidth ≤ 0 ∨ cropHeight ≤ 0 then ⟨none, false, false⟩
    else
      let finalScale := finalScaleOf pageW pageH b scale
      if ctxOk = false then ⟨none, true, false⟩
      else if renderOk = false then ⟨none, true, true⟩
      else ⟨some (⌊cropWidth * finalScale⌋, ⌊cropHeight * finalScale⌋), true, true⟩
  else ⟨none, false, false⟩

/-- C8: for every box degenerate after clamping (`xmax ≤ xmin` or
`ymax ≤ ymin`), `renderHighQualityCrop` returns the `null` sentinel
before allocating a canvas or drawing the page. -/
theorem renderHighQualityCrop_invalidBox (pageW pageH : ℚ)
    (hW : 0 ≤ pageW) (hH : 0 ≤ pageH) (b : Box) (scale : ℚ)
    (pageOk ctxOk renderOk : Bool)
    (hbox : clamp1000 b.xmax ≤ clamp1000 b.xmin ∨ clamp1000 b.ymax ≤ clamp1000 b.ymin) :
    renderHighQualityCrop pageW pageH b scale pageOk ctxOk renderOk
      = ⟨none, false, false⟩ := by
  cases pageOk with
  | false => simp [renderHighQualityCrop]
  | true =>
    have hguard : cropWidthOf pageW b ≤ 0 ∨ cropHeightOf pageH b ≤ 0 := by
      rcases hbox with h | h
      · left
        have hx : clamp1000 b.xmax - clamp1000 b.xmin ≤ 0 := by linarith
        exact mul_nonpos_of_nonpos_of_nonneg
          (div_nonpos_of_nonpos_of_nonneg hx (by norm_num)) hW
      · right
        have hy : clamp1000 b.ymax - clamp1000 b.ymin ≤ 0 := by linarith
        exact mul_nonpos_of_nonpos_of_nonneg
          (div_nonpos_of_nonpos_of_nonneg hy (by norm_num)) hH
    simp [renderHighQualityCrop, hguard]

/-- Witness for C8: the box `[0,0,0,0]` on a 612×792-point page yields
the `null` sentinel with no canvas and no rendering. -/
theorem renderHighQualityCrop_invalidBox_witness :
    renderHighQualityCrop 612 792 ⟨0, 0, 0, 0⟩ 4 true true true
      = ⟨none, false, false⟩ :=
  renderHighQualityCrop_invalidBox 612 792 (by norm_num) (by norm_num)
    ⟨0, 0, 0, 0⟩ 4 true true true (by left; simp [clamp1000])

lemma cropWidthOf_pos (pageW : ℚ) (b : Box) (hW : 0 < pageW)
    (hx : clamp1000 b.xmin < clamp1000 b.xmax) : 0 < cropWidthOf pageW b :=
  mul_pos (div_pos (by linarith) (by norm_num)) hW

lemma cropHeightOf_pos (pageH : ℚ) (b : Box) (hH : 0 < pageH)
    (hy : clamp1000 b.ymin < clamp1000 b.ymax) : 0 < cropHeightOf pageH b :=
  mul_pos (div_pos (by linarith) (by norm_num)) hH

/-- C2: for every box valid after clamping and every positive requested
scale (with the canvas context available and `page.render` succeeding),
`renderHighQualityCrop` outputs exactly
`floor(cropWidth*finalScale) × floor(cropHeight*finalScale)` pixels, the
final scale never exceeds the requested one, it equals the requested one
whenever both uncapped products fit in 4096, and both capped products fit
in 4096. -/
theorem renderHighQualityCrop_dims (pageW pageH : ℚ) (b : Box) (scale : ℚ)
    (hW : 0 < pageW) (hH : 0 < pageH) (hs : 0 < scale)
    (hx : clamp1000 b.xmin < clamp1000 b.xmax)
    (hy : clamp1000 b.ymin < clamp1000 b.ymax) :
    renderHighQualityCrop pageW pageH b scale true true true
      = ⟨some (⌊cropWidthOf pageW b * finalScaleOf pageW pageH b scale⌋,
              ⌊cropHeightOf pageH b * finalScaleOf pageW pageH b scale⌋), true, true⟩ ∧
    finalScaleOf pageW pageH b scale ≤ scale ∧
    (cropWidthOf pageW b * scale ≤ 4096 ∧ cropHeightOf pageH b * scale ≤ 4096 →
      finalScaleOf pageW pageH b scale = scale) ∧
    cropWidthOf pageW b * finalScaleOf pageW pageH b scale ≤ 4096 ∧
    cropHeightOf pageH b * finalScaleOf pageW pageH b scale ≤ 4096 := by
  have hcw : 0 < cropWidthOf pageW b := cropWidthOf_pos pageW b hW hx
  have hch : 0 < cropHeightOf pageH b := cropHeightOf_pos pageH b hH hy
  have hguard : ¬(cropWidthOf pageW b ≤ 0 ∨ cropHeightOf pageH b ≤ 0) := by
    push_neg
    exact ⟨hcw, hch⟩
  refine ⟨by simp [renderHighQualityCrop, hguard], ?_⟩
  set cw := cropWidthOf pageW b with hcwdef
  set ch := cropHeightOf pageH b with hchdef
  have hfs : finalScaleOf pageW pageH b scale
      = if (4096 : ℚ) < ch * (if (4096 : ℚ) < cw * scale then 4096 / cw else scale)
        then 4096 / ch
        else (if (4096 : ℚ) < cw * scale then 4096 / cw else scale) := rfl
  by_cases h1 : (4096 : ℚ) < cw * scale
  · rw [if_pos h1] at hfs
    by_cases h2 : (4096 : ℚ) < ch * (4096 / cw)
    · rw [if_pos h2] at hfs
      rw [hfs]
      have hcwch : cw < ch := by
        rw [mul_div_assoc', lt_div_iff₀ hcw] at h2
        nlinarith
      refine ⟨?_, ?_, ?_, ?_⟩
      · rw [div_le_iff₀ hch]
        nlinarith
      · intro hle
        nlinarith [hle.1]
      · rw [mul_div_assoc', div_le_iff₀ hch]
        nlinarith
      · rw [mul_div_cancel₀ _ hch.ne']
    · rw [if_neg h2] at hfs
      rw [hfs]
      refine ⟨?_, ?_, ?_, ?_⟩
      · rw [div_le_iff₀ hcw]
        nlinarith
      · intro hle
        nlinarith [hle.1]
      · rw [mul_div_cancel₀ _ hcw.ne']
      · exact le_of_not_lt h2
  · rw [if_neg h1] at hfs
    by_cases h2 : (4096 : ℚ) < ch * scale
    · rw [if_pos h2] at hfs
      rw [hfs]
      have hcwch : cw < ch := by
        nlinarith [le_of_not_lt h1]
      refine ⟨?_, ?_, ?_, ?_⟩
      · rw [div_le_iff₀ hch]
        nlinarith
      · intro hle
        nlinarith [hle.2]
      · rw [mul_div_assoc', div_le_iff₀ hch]
        nlinarith
      · rw [mul_div_cancel₀ _ hch.ne']
    · rw [if_neg h2] at hfs
      rw [hfs]
      exact ⟨le_refl scale, fun _ => rfl, le_of_not_lt h1, le_of_not_lt h2⟩

/-- Witness for C2: a full-page box on a 612×792-point page at requested
scale 4 stays uncapped and yields a 2448×3168 output. -/
theorem renderHighQualityCrop_dims_witness :
    renderHighQualityCrop 612 792 ⟨0, 0, 1000, 1000⟩ 4 true true true
      = ⟨some (⌊cropWidthOf 612 ⟨0, 0, 1000, 1000⟩
                * finalScaleOf 612 792 ⟨0, 0, 1000, 1000⟩ 4⌋,
              ⌊cropHeightOf 792 ⟨0, 0, 1000, 1000⟩
                * finalScaleOf 612 792 ⟨0, 0, 1000, 1000⟩ 4⌋), true, true⟩ ∧
    finalScaleOf 612 792 ⟨0, 0, 1000, 1000⟩ 4 ≤ 4 ∧
    (cropWidthOf 612 ⟨0, 0, 1000, 1000⟩ * 4 ≤ 4096 ∧
        cropHeightOf 792 ⟨0, 0, 1000, 1000⟩ * 4 ≤ 4096 →
      finalScaleOf 612 792 ⟨0, 0, 1000, 1000⟩ 4 = 4) ∧
    cropWidthOf 612 ⟨0, 0, 1000, 1000⟩ * finalScaleOf 612 792 ⟨0, 0, 1000, 1000⟩ 4 ≤ 4096 ∧
    cropHeightOf 792 ⟨0, 0, 1000, 1000⟩ * finalScaleOf 612 792 ⟨0, 0, 1000, 1000⟩ 4 ≤ 4096 :=
  renderHighQualityCrop_dims 612 792 ⟨0, 0, 1000, 1000⟩ 4 (by norm_num) (by norm_num)
    (by norm_num) (by norm_num [clamp1000]) (by norm_num [clamp1000])

/-- A resolved embedded raster object (`imgObj` in `extractBestImageForBox`):
pixel dimensions, pdf.js `kind` code (4 is the CMYK case the source tests)
and the raw byte buffer. -/
structure ImgObj where
  width : ℕ
  height : ℕ
  kind : ℕ
  data : List ℕ
deriving DecidableEq, Repr

/-- One `paintImageXObject` occurrence found in the scan (pageParser line
216): the raster object as resolved through `commonObjs`/`objs` (`none`
when the name is in neither table, line 219-224), and whether a 2d canvas
context is available for the canvas allocated for this candidate
(line 254). -/
structure ScanEntry where
  resolved : Option ImgObj
  ctxOk : Bool
deriving DecidableEq, Repr

/-- The size filter of pageParser line 226:
`imgObj.width > 100 && imgObj.height > 100`. -/
def sizeCheckOk (o : ImgObj) : Bool :=
  decide (100 < o.width) && decide (100 < o.height)

/-- RGB (24-bit) to RGBA (32-bit) expansion (pageParser lines 266-272). -/
def rgb24to32 : List ℕ → List ℕ
  | r :: g :: b :: rest => r :: g :: b :: 255 :: rgb24to32 rest
  | _ => []

/-- Model of the losslessly encoded candidate
(`canvas.toDataURL('image/png')` after `putImageData`): the canvas
dimensions together with the pixel buffer, i.e. the converted RGBA bytes
followed by the zero bytes the freshly created `ImageData` started with. -/
structure EncodedPng where
  width : ℕ
  height : ℕ
  buffer : List ℕ
deriving DecidableEq, Repr

/-- Model of `putImageData` of a converted buffer into a `width × height` canvas. -/
def encodeImage (o : ImgObj) (rgba : List ℕ) : EncodedPng :=
  ⟨o.width, o.height, rgba ++ List.replicate (o.width * o.height * 4 - rgba.length) 0⟩

/-- The target aspect `boxWidth / boxHeight` of pageParser lines 205-206 and 230 (raw box
coordinates, no clamping in this function). -/
def boxAspectOf (b : Box) : ℚ := (b.xmax - b.xmin) / (b.ymax - b.ymin)

/-- The candidate aspect `imgObj.width / imgObj.height` (pageParser line 229). -/
def imgAspectOf (o : ImgObj) : ℚ := (o.width : ℚ) / o.height

/-- The fit measure `Math.abs(imgAspect - boxAspect)` (pageParser line 231). -/
def aspectDiffOf (o : ImgObj) (boxAspect : ℚ) : ℚ := |imgAspectOf o - boxAspect|

/-- The candidate score (pageParser lines 244-246):
`(1 - aspectDiff) * 100`, plus 50 when `width * height > 1,000,000`. -/
def scoreOf (o : ImgObj) (boxAspect : ℚ) : ℚ :=
  (1 - aspectDiffOf o boxAspect) * 100
    + (if 1000000 < o.width * o.height then (50 : ℚ) else 0)

/-- The loop state of `extractBestImageForBox`: `bestScore` (starts at -1)
and `bestImage` (starts at `null`), pageParser lines 212-213. -/
structure ScanState where
  bestScore : ℚ
  bestImage : Option EncodedPng
deriving DecidableEq, Repr

/-- One iteration of the candidate loop (pageParser lines 215-286),
faithful to the source's order: unresolved names are skipped; the size
check and the 0.5 aspect cut are applied; when the score beats the
running best the best score is updated **first**, then the canvas context
is acquired and the pixel format dispatched — an unavailable context or
an unsupported format `continue`s with the best score already raised but
the best image unchanged. The CMYK decode itself never throws (ragged
buffers read missing channels as `NaN`, stored as 0, with out-of-bounds
writes ignored); the one throwing step is `imgData.data.set` when the
buffer is longer than the canvas's `width*height*4` (`ImageData.set`
overflow), which the function's `catch` turns into the `null` result. -/
def scanStep (boxAspect : ℚ) (st : ScanState) (e : ScanEntry) : Except Unit ScanState :=
  match e.resolved with
  | none => .ok st
  | some o =>
    if sizeCheckOk o then
      if (1 : ℚ)/2 < aspectDiffOf o boxAspect then .ok st
      else
        let score := scoreOf o boxAspect
        if st.bestScore < score then
          if e.ctxOk then
            if o.kind = 4 then
              if o.data.length ≤ o.width * o.height * 4 then
                .ok ⟨score, some (encodeImage o (convertCMYKtoRGB o.data))⟩
              else .error ()
            else if o.data.length = o.width * o.height * 3 then
              .ok ⟨score, some (encodeImage o (rgb24to32 o.data))⟩
            else if o.data.length = o.width * o.height * 4 then
              .ok ⟨score, some (encodeImage o o.data)⟩
            else .ok ⟨score, st.bestImage⟩
          else .ok ⟨score, st.bestImage⟩
        else .ok st
    else .ok st

/-- Embedding of `extractBestImageForBox` (pageParser lines 189-298):
fold the candidate loop over the scan's `paintImageXObject` entries, then
return `null` when the tracked best score is below 70, else the tracked
best image; `pageOk = false` models `getPage`/`getOperatorList` throwing,
and a thrown step makes the whole function return `null` via its `catch`. -/
def extractBestImageForBox (b : Box) (entries : List ScanEntry) (pageOk : Bool) :
    Option EncodedPng :=
  if pageOk = true then
    match List.foldlM (scanStep (boxAspectOf b)) ⟨-1, none⟩ entries with
    | .error _ => none
    | .ok st => if st.bestScore < 70 then none else st.bestImage
  else none

lemma aspectDiff_A : aspectDiffOf ⟨110, 110, 4, []⟩ (boxAspectOf ⟨0, 0, 500, 300⟩) = 2/5 := by
  rw [aspectDiffOf, imgAspectOf, boxAspectOf]
  push_cast
  rw [abs_of_nonneg (by norm_num)]
  norm_num

lemma aspectDiff_B : aspectDiffOf ⟨111, 185, 0, []⟩ (boxAspectOf ⟨0, 0, 500, 300⟩) = 0 := by
  rw [aspectDiffOf, imgAspectOf, boxAspectOf]
  push_cast
  rw [show (111 : ℚ)/185 - (300 - 0)/(500 - 0) = 0 by norm_num, abs_zero]

lemma score_A : scoreOf ⟨110, 110, 4, []⟩ (boxAspectOf ⟨0, 0, 500, 300⟩) = 60 := by
  rw [scoreOf, aspectDiff_A]
  norm_num

lemma score_B : scoreOf ⟨111, 185, 0, []⟩ (boxAspectOf ⟨0, 0, 500, 300⟩) = 100 := by
  rw [scoreOf, aspectDiff_B]
  norm_num

lemma scanStep_A :
    scanStep (boxAspectOf ⟨0, 0, 500, 300⟩) ⟨-1, none⟩ ⟨some ⟨110, 110, 4, []⟩, true⟩
      = Except.ok ⟨60, some ⟨110, 110, List.replicate 48400 0⟩⟩ := by
  simp only [scanStep, sizeCheckOk, aspectDiff_A, score_A, encodeImage, convertCMYKtoRGB]
  norm_num

lemma scanStep_B :
    scanStep (boxAspectOf ⟨0, 0, 500, 300⟩) ⟨60, some ⟨110, 110, List.replicate 48400 0⟩⟩
        ⟨some ⟨111, 185, 0, []⟩, true⟩
      = Except.ok ⟨100, some ⟨110, 110, List.replicate 48400 0⟩⟩ := by
  simp only [scanStep, sizeCheckOk, aspectDiff_B, score_B]
  norm_num

/-- C1 evaluation at the failing input: scanning a first candidate A
(110×110 CMYK, aspect difference 0.4, score 60) and then a second
candidate B (111×185, perfect aspect fit, score 100) whose byte layout is
unsupported, the function returns A's encoding even though A's score 60
is below the 70 confidence threshold: the skipped candidate B raised the
tracked best score to 100 (pageParser line 249 runs before the
format/context checks), so skipped candidates do influence both the
tracked best score and which candidate is returned. -/
theorem extractBest_skip_influences_eval :
    extractBestImageForBox ⟨0, 0, 500, 300⟩
        [⟨some ⟨110, 110, 4, []⟩, true⟩, ⟨some ⟨111, 185, 0, []⟩, true⟩] true
      = some ⟨110, 110, List.replicate 48400 0⟩ ∧
    scoreOf ⟨110, 110, 4, []⟩ (boxAspectOf ⟨0, 0, 500, 300⟩) = 60 ∧
    scoreOf ⟨111, 185, 0, []⟩ (boxAspectOf ⟨0, 0, 500, 300⟩) = 100 ∧
    (60 : ℚ) < 70 := by
  refine ⟨?_, score_A, score_B, by norm_num⟩
  rw [extractBestImageForBox]
  simp only [List.foldlM_cons, List.foldlM_nil, scanStep_A, scanStep_B, bind, Except.bind,
    pure, Except.pure]
  norm_num

/-- C9 counterexample: a resolved candidate of exactly 100×100 pixels
does not pass the size check (`width > 100 && height > 100` is strict),
so a perfectly box-matching 100×100 candidate — which would score 100 and
be returned if it proceeded to scoring — is skipped and the scan returns
the `null` sentinel. -/
theorem sizeCheck_boundary_counterexample :
    sizeCheckOk ⟨100, 100, 0, []⟩ = false ∧
    scoreOf ⟨100, 100, 0, []⟩ (boxAspectOf ⟨0, 0, 100, 100⟩) = 100 ∧
    extractBestImageForBox ⟨0, 0, 100, 100⟩ [⟨some ⟨100, 100, 0, []⟩, true⟩] true = none := by
  have hd : aspectDiffOf ⟨100, 100, 0, []⟩ (boxAspectOf ⟨0, 0, 100, 100⟩) = 0 := by
    rw [aspectDiffOf, imgAspectOf, boxAspectOf]
    push_cast
    rw [show (100 : ℚ)/100 - (100 - 0)/(100 - 0) = 0 by norm_num, abs_zero]
  refine ⟨rfl, by rw [scoreOf, hd]; norm_num, ?_⟩
  have hstep : scanStep (boxAspectOf ⟨0, 0, 100, 100⟩) ⟨-1, none⟩
      ⟨some ⟨100, 100, 0, []⟩, true⟩ = Except.ok ⟨-1, none⟩ := by
    simp [scanStep, sizeCheckOk]
  rw [extractBestImageForBox]
  simp only [List.foldlM_cons, List.foldlM_nil, hstep, bind, Except.bind, pure, Except.pure]
  norm_num

/-- C9 amended: a resolved candidate is skipped by the size check exactly
when its width or height is at most 100 pixels; only candidates with both
dimensions at least 101 (strictly greater than 100) proceed to aspect
filtering and scoring — a candidate of exactly 100×100 is skipped. -/
theorem sizeCheck_amended (o : ImgObj) (boxAspect : ℚ) (st : ScanState) (c : Bool) :
    (sizeCheckOk o = true ↔ 101 ≤ o.width ∧ 101 ≤ o.height) ∧
    (sizeCheckOk o = false → scanStep boxAspect st ⟨some o, c⟩ = Except.ok st) := by
  constructor
  · rw [sizeCheckOk]
    simp only [Bool.and_eq_true, decide_eq_true_eq]
    omega
  · intro h
    simp [scanStep, h]

/-- Witness for the amended C9 at the 100×100 boundary candidate. -/
theorem sizeCheck_amended_witness :
    (sizeCheckOk ⟨100, 100, 0, []⟩ = true ↔ 101 ≤ (100 : ℕ) ∧ 101 ≤ (100 : ℕ)) ∧
    (sizeCheckOk ⟨100, 100, 0, []⟩ = false →
      scanStep 1 ⟨-1, none⟩ ⟨some ⟨100, 100, 0, []⟩, true⟩ = Except.ok ⟨-1, none⟩) :=
  sizeCheck_amended ⟨100, 100, 0, []⟩ 1 ⟨-1, none⟩ true

/-- C10: neither function lets an internal failure escape: an unavailable
page or operator list, an unavailable canvas context, a failing render,
or a throwing candidate-decode step all surface as the `null` sentinel —
the same value `extractBestImageForBox` returns for a best score below
the 70 confidence threshold, so the caller cannot distinguish a render
failure from a low-confidence result at this interface. -/
theorem null_sentinel_on_internal_error :
    (∀ (pageW pageH : ℚ) (b : Box) (scale : ℚ) (pageOk ctxOk renderOk : Bool),
      pageOk = false ∨ ctxOk = false ∨ renderOk = false →
        (renderHighQualityCrop pageW pageH b scale pageOk ctxOk renderOk).result = none) ∧
    (∀ (b : Box) (entries : List ScanEntry), extractBestImageForBox b entries false = none) ∧
    (∀ (b : Box) (entries : List ScanEntry) (e : Unit),
      List.foldlM (scanStep (boxAspectOf b)) ⟨-1, none⟩ entries = Except.error e →
        extractBestImageForBox b entries true = none) ∧
    (∀ (b : Box) (entries : List ScanEntry) (st : ScanState),
      List.foldlM (scanStep (boxAspectOf b)) ⟨-1, none⟩ entries = Except.ok st →
        st.bestScore < 70 → extractBestImageForBox b entries true = none) := by
  refine ⟨?_, ?_, ?_, ?_⟩
  · intro pageW pageH b scale pageOk ctxOk renderOk h
    cases pageOk <;> cases ctxOk <;> cases renderOk <;>
      simp_all [renderHighQualityCrop] <;> (try split) <;> simp_all
  · intro b entries
    simp [extractBestImageForBox]
  · intro b entries e h
    rw [extractBestImageForBox]
    simp [h]
  · intro b entries st h hlt
    rw [extractBestImageForBox]
    simp [h, hlt]

lemma scanStep_cmyk_throw :
    scanStep (boxAspectOf ⟨0, 0, 100, 100⟩) ⟨-1, none⟩
        ⟨some ⟨110, 110, 4, List.replicate 48401 0⟩, true⟩
      = Except.error () := by
  have hd : aspectDiffOf ⟨110, 110, 4, List.replicate 48401 0⟩
      (boxAspectOf ⟨0, 0, 100, 100⟩) = 0 := by
    rw [aspectDiffOf, imgAspectOf, boxAspectOf]
    push_cast
    rw [show (110 : ℚ)/110 - (100 - 0)/(100 - 0) = 0 by norm_num, abs_zero]
  have hs : scoreOf ⟨110, 110, 4, List.replicate 48401 0⟩
      (boxAspectOf ⟨0, 0, 100, 100⟩) = 100 := by
    rw [scoreOf, hd]
    norm_num
  simp only [scanStep, sizeCheckOk, hd, hs, List.length_replicate]
  norm_num

lemma foldlM_cmyk_throw :
    List.foldlM (scanStep (boxAspectOf ⟨0, 0, 100, 100⟩)) ⟨-1, none⟩
        [⟨some ⟨110, 110, 4, List.replicate 48401 0⟩, true⟩] = Except.error () := by
  rw [List.foldlM_cons, scanStep_cmyk_throw]
  rfl

/-- Witness for C10: a failed page load, a CMYK candidate whose buffer
overflows the canvas's `width*height*4` (the `ImageData.set` throw), and
an empty low-confidence scan all yield `null`. -/
theorem null_sentinel_on_internal_error_witness :
    (renderHighQualityCrop 612 792 ⟨0, 0, 1000, 1000⟩ 4 false true true).result = none ∧
    extractBestImageForBox ⟨0, 0, 500, 300⟩ [] false = none ∧
    extractBestImageForBox ⟨0, 0, 100, 100⟩
        [⟨some ⟨110, 110, 4, List.replicate 48401 0⟩, true⟩] true = none ∧
    extractBestImageForBox ⟨0, 0, 100, 100⟩ [] true = none :=
  ⟨null_sentinel_on_internal_error.1 612 792 ⟨0, 0, 1000, 1000⟩ 4 false true true (Or.inl rfl),
   null_sentinel_on_internal_error.2.1 ⟨0, 0, 500, 300⟩ [],
   null_sentinel_on_internal_error.2.2.1 ⟨0, 0, 100, 100⟩
     [⟨some ⟨110, 110, 4, List.replicate 48401 0⟩, true⟩] () foldlM_cmyk_throw,
   null_sentinel_on_internal_error.2.2.2 ⟨0, 0, 100, 100⟩ [] ⟨-1, none⟩ rfl (by norm_num)⟩

/-- Predicate for `pat` being an initial segment of `s` (character lists). -/
def leadsWith : List Char → List Char → Bool
  | [], _ => true
  | _ :: _, [] => false
  | p :: ps, c :: cs => (p == c) && leadsWith ps cs

/-- Substring search on character lists. -/
def listContainsSub : List Char → List Char → Bool
  | [], pat => leadsWith pat []
  | c :: cs, pat => leadsWith pat (c :: cs) || listContainsSub cs pat

/-- JavaScript's `String.prototype.includes` for a non-empty search
string. -/
def jsIncludes (s pat : String) : Bool := listContainsSub s.toList pat.toList

/-- The circuit-breaker test of the batch loop (App.tsx line 194):
`pageError.message && pageError.message.includes('AUTH_ERROR')`. -/
def hasAuthError (msg : String) : Bool := jsIncludes msg "AUTH_ERROR"

/-- The per-page work of the batch loop as seen from `handleStartProcessing`:
`renderSinglePage` plus `extractProductDataFromPage`, keyed by file name
and page number, producing the page's product records (modelled by
identifiers) or throwing an error message — e.g. the
`AUTH_ERROR: The provided API Key is not valid.` message that
`geminiService.ts` (lines 151-153) throws on a 401/API-key failure. -/
abbrev Collab := String → ℕ → Except String (List ℕ)

/-- Observable resource/processing events of one batch run. -/
inductive BEvent where
  | load (file : String)
  | page (file : String) (pageNum : ℕ)
  | destroy (file : String)
deriving DecidableEq, Repr

/-- Accumulated state of the batch loop: the `results` list (appended to
by `setResults` as each page succeeds) and the event trace. -/
structure BatchState where
  results : List ℕ
  trace : List BEvent
deriving DecidableEq, Repr

/-- Ascending insertion used to model
`Array.from(pages).sort((a, b) => a - b)` (App.tsx line 166). -/
def insertAsc (p : ℕ) : List ℕ → List ℕ
  | [] => [p]
  | q :: rest => if p ≤ q then p :: q :: rest else q :: insertAsc p rest

/-- The sorted page list of a file. -/
def sortPages (l : List ℕ) : List ℕ := l.foldr insertAsc []

/-- The inner page loop of `handleStartProcessing` (App.tsx lines
169-200): pages are processed in sorted order; a successful page appends
its products to the results; a failing page whose message contains
`AUTH_ERROR` rethrows — aborting the batch, second component `true` —
while any other page failure is only logged and the loop continues. -/
def processPages (collab : Collab) (fname : String) :
    List ℕ → BatchState → BatchState × Bool
  | [], st => (st, false)
  | p :: rest, st =>
    let st1 : BatchState := ⟨st.results, st.trace ++ [BEvent.page fname p]⟩
    match collab fname p with
    | .ok prods => processPages collab fname rest ⟨st1.results ++ prods, st1.trace⟩
    | .error msg =>
      if hasAuthError msg then (st1, true)
      else processPages collab fname rest st1

/-- The outer file loop of `handleStartProcessing` (App.tsx lines
154-204): load each file's document, run the page loop, then call
`pdfDoc.destroy()` (line 203). The rethrown authentication error
propagates past the `destroy()` call straight to the outer `catch`, so an
aborting file's document is never destroyed and no later file is
loaded. -/
def processFiles (collab : Collab) :
    List (String × List ℕ) → BatchState → BatchState × Bool
  | [], st => (st, false)
  | (fname, pages) :: rest, st =>
    let loaded : BatchState := ⟨st.results, st.trace ++ [BEvent.load fname]⟩
    match processPages collab fname (sortPages pages) loaded with
    | (st1, true) => (st1, true)
    | (st1, false) =>
      processFiles collab rest ⟨st1.results, st1.trace ++ [BEvent.destroy fname]⟩

/-- The batch body of `handleStartProcessing` (App.tsx lines 121-212): files
with no selected pages are filtered out (lines 126-129), then the file
loop runs with empty results; the boolean is `true` when the batch was
aborted by the authentication circuit breaker. -/
def runBatch (collab : Collab) (files : List (String × List ℕ)) : BatchState × Bool :=
  processFiles collab (files.filter (fun fp => !fp.2.isEmpty)) ⟨[], []⟩

/-- Products contributed by a page: its records on success, nothing on a
thrown page. -/
def okOf (collab : Collab) (fname : String) (p : ℕ) : List ℕ :=
  match collab fname p with
  | .ok prods => prods
  | .error _ => []

/-- Whether the collaborator throws an authentication error on a page. -/
def authErrAt (collab : Collab) (fname : String) (p : ℕ) : Bool :=
  match collab fname p with
  | .ok _ => false
  | .error msg => hasAuthError msg

/-- The trace block of one completely processed file: load, its sorted
pages, then exactly one destroy. -/
def fileBlock (fp : String × List ℕ) : List BEvent :=
  BEvent.load fp.1 :: ((sortPages fp.2).map (BEvent.page fp.1) ++ [BEvent.destroy fp.1])

/-- All pages the batch would submit, in order, were no failure to
occur. -/
def schedule (files : List (String × List ℕ)) : List (String × ℕ) :=
  (files.filter (fun fp => !fp.2.isEmpty)).flatMap
    (fun fp => (sortPages fp.2).map (fun p => (fp.1, p)))

/-- The pages actually submitted in a trace, in order. -/
def pageEvents : List BEvent → List (String × ℕ) :=
  List.filterMap (fun e => match e with
    | BEvent.page f p => some (f, p)
    | _ => none)

lemma processPages_ok (collab : Collab) (fname : String) :
    ∀ (ps : List ℕ) (st : BatchState),
      (processPages collab fname ps st).2 = false →
        (processPages collab fname ps st).1.trace
            = st.trace ++ ps.map (BEvent.page fname) ∧
        (processPages collab fname ps st).1.results
            = st.results ++ ps.flatMap (okOf collab fname) ∧
        ∀ p ∈ ps, authErrAt collab fname p = false := by
  intro ps
  induction ps with
  | nil =>
    intro st _
    simp [processPages]
  | cons p rest ih =>
    intro st hfalse
    simp only [processPages] at hfalse ⊢
    cases hc : collab fname p with
    | ok prods =>
      rw [hc] at hfalse
      dsimp only at hfalse ⊢
      obtain ⟨ht, hr, ha⟩ := ih _ hfalse
      refine ⟨?_, ?_, ?_⟩
      · rw [ht]
        simp
      · rw [hr]
        simp [okOf, hc]
      · intro q hq
        rcases List.mem_cons.1 hq with rfl | hq
        · simp [authErrAt, hc]
        · exact ha q hq
    | error msg =>
      rw [hc] at hfalse
      dsimp only at hfalse ⊢
      by_cases hauth : hasAuthError msg = true
      · rw [if_pos hauth] at hfalse
        simp at hfalse
      · rw [if_neg hauth] at hfalse ⊢
        obtain ⟨ht, hr, ha⟩ := ih _ hfalse
        refine ⟨?_, ?_, ?_⟩
        · rw [ht]
          simp
        · rw [hr]
          simp [okOf, hc]
        · intro q hq
          rcases List.mem_cons.1 hq with rfl | hq
          · simp only [authErrAt, hc]
            exact Bool.not_eq_true _ ▸ hauth
          · exact ha q hq

lemma processPages_abort (collab : Collab) (fname : String) :
    ∀ (ps : List ℕ) (st : BatchState),
      (processPages collab fname ps st).2 = true →
        ∃ pre p post, ps = pre ++ p :: post ∧
          (processPages collab fname ps st).1.trace
              = st.trace ++ (pre ++ [p]).map (BEvent.page fname) ∧
          (processPages collab fname ps st).1.results
              = st.results ++ pre.flatMap (okOf collab fname) ∧
          authErrAt collab fname p = true ∧
          ∀ q ∈ pre, authErrAt collab fname q = false := by
  intro ps
  induction ps with
  | nil =>
    intro st h
    simp [processPages] at h
  | cons p rest ih =>
    intro st htrue
    simp only [processPages] at htrue ⊢
    cases hc : collab fname p with
    | ok prods =>
      rw [hc] at htrue
      dsimp only at htrue ⊢
      obtain ⟨pre, q, post, hsplit, ht, hr, hq, hpre⟩ := ih _ htrue
      refine ⟨p :: pre, q, post, by simp [hsplit], ?_, ?_, hq, ?_⟩
      · rw [ht]
        simp
      · rw [hr]
        simp [okOf, hc]
      · intro x hx
        rcases List.mem_cons.1 hx with rfl | hx
        · simp [authErrAt, hc]
        · exact hpre x hx
    | error msg =>
      rw [hc] at htrue
      dsimp only at htrue ⊢
      by_cases hauth : hasAuthError msg = true
      · rw [if_pos hauth] at htrue ⊢
        refine ⟨[], p, rest, rfl, by simp, by simp, ?_, by simp⟩
        simp [authErrAt, hc, hauth]
      · rw [if_neg hauth] at htrue ⊢
        obtain ⟨pre, q, post, hsplit, ht, hr, hq, hpre⟩ := ih _ htrue
        refine ⟨p :: pre, q, post, by simp [hsplit], ?_, ?_, hq, ?_⟩
        · rw [ht]
          simp
        · rw [hr]
          simp [okOf, hc]
        · intro x hx
          rcases List.mem_cons.1 hx with rfl | hx
          · simp only [authErrAt, hc]
            exact Bool.not_eq_true _ ▸ hauth
          · exact hpre x hx

lemma processFiles_ok (collab : Collab) :
    ∀ (files : List (String × List ℕ)) (st : BatchState),
      (processFiles collab files st).2 = false →
        (processFiles collab files st).1.trace = st.trace ++ files.flatMap fileBlock ∧
        (processFiles collab files st).1.results
            = st.results
              ++ files.flatMap (fun fp => (sortPages fp.2).flatMap (okOf collab fp.1)) ∧
        ∀ fp ∈ files, ∀ p ∈ sortPages fp.2, authErrAt collab fp.1 p = false := by
  intro files
  induction files with
  | nil =>
    intro st _
    simp [processFiles]
  | cons fp rest ih =>
    intro st hfalse
    obtain ⟨fname, pages⟩ := fp
    simp only [processFiles] at hfalse ⊢
    rcases hpp : processPages collab fname (sortPages pages)
        ⟨st.results, st.trace ++ [BEvent.load fname]⟩ with ⟨st1, ab⟩
    cases ab with
    | true =>
      rw [hpp] at hfalse
      simp at hfalse
    | false =>
      rw [hpp] at hfalse
      dsimp only at hfalse ⊢
      obtain ⟨ht1, hr1, ha1⟩ := processPages_ok collab fname (sortPages pages)
        ⟨st.results, st.trace ++ [BEvent.load fname]⟩ (by rw [hpp])
      rw [hpp] at ht1 hr1
      obtain ⟨ht2, hr2, ha2⟩ := ih ⟨st1.results, st1.trace ++ [BEvent.destroy fname]⟩ hfalse
      refine ⟨?_, ?_, ?_⟩
      · rw [ht2]
        dsimp only
        rw [ht1]
        simp [fileBlock]
      · rw [hr2]
        dsimp only
        rw [hr1]
        simp
      · intro gp hgp
        rcases List.mem_cons.1 hgp with rfl | hgp
        · exact ha1
        · exact ha2 gp hgp

lemma processFiles_abort (collab : Collab) :
    ∀ (files : List (String × List ℕ)) (st : BatchState),
      (processFiles collab files st).2 = true →
        ∃ fs1 fname pages fs2 pre p post,
          files = fs1 ++ (fname, pages) :: fs2 ∧
          sortPages pages = pre ++ p :: post ∧
          (processFiles collab files st).1.trace
              = st.trace ++ fs1.flatMap fileBlock
                ++ BEvent.load fname :: (pre ++ [p]).map (BEvent.page fname) ∧
          (processFiles collab files st).1.results
              = st.results
                ++ fs1.flatMap (fun fp => (sortPages fp.2).flatMap (okOf collab fp.1))
                ++ pre.flatMap (okOf collab fname) ∧
          authErrAt collab fname p = true ∧
          (∀ q ∈ pre, authErrAt collab fname q = false) ∧
          ∀ gp ∈ fs1, ∀ q ∈ sortPages gp.2, authErrAt collab gp.1 q = false := by
  intro files
  induction files with
  | nil =>
    intro st h
    simp [processFiles] at h
  | cons fp rest ih =>
    intro st htrue
    obtain ⟨fname, pages⟩ := fp
    simp only [processFiles] at htrue ⊢
    rcases hpp : processPages collab fname (sortPages pages)
        ⟨st.results, st.trace ++ [BEvent.load fname]⟩ with ⟨st1, ab⟩
    cases ab with
    | true =>
      dsimp only
      obtain ⟨pre, p, post, hsort, ht1, hr1, hp, hpre⟩ := processPages_abort collab fname
        (sortPages pages) ⟨st.results, st.trace ++ [BEvent.load fname]⟩ (by rw [hpp])
      rw [hpp] at ht1 hr1
      refine ⟨[], fname, pages, rest, pre, p, post, by simp, hsort, ?_, ?_, hp, hpre, by simp⟩
      · rw [ht1]
        simp
      · rw [hr1]
        simp
    | false =>
      rw [hpp] at htrue
      dsimp only at htrue ⊢
      obtain ⟨ht1, hr1, ha1⟩ := processPages_ok collab fname (sortPages pages)
        ⟨st.results, st.trace ++ [BEvent.load fname]⟩ (by rw [hpp])
      rw [hpp] at ht1 hr1
      obtain ⟨fs1, gname, gpages, fs2, pre, p, post, hfiles, hsort, ht2, hr2, hp, hpre, hfs1⟩ :=
        ih ⟨st1.results, st1.trace ++ [BEvent.destroy fname]⟩ htrue
      refine ⟨(fname, pages) :: fs1, gname, gpages, fs2, pre, p, post, by simp [hfiles], hsort,
        ?_, ?_, hp, hpre, ?_⟩
      · rw [ht2]
        dsimp only
        rw [ht1]
        simp [fileBlock]
      · rw [hr2]
        dsimp only
        rw [hr1]
        simp
      · intro gp hgp
        rcases List.mem_cons.1 hgp with rfl | hgp
        · exact ha1
        · exact hfs1 gp hgp

lemma pageEvents_append (a b : List BEvent) :
    pageEvents (a ++ b) = pageEvents a ++ pageEvents b :=
  List.filterMap_append a b _

lemma pageEvents_map_page (fname : String) (l : List ℕ) :
    pageEvents (l.map (BEvent.page fname)) = l.map (fun q => (fname, q)) := by
  induction l with
  | nil => simp [pageEvents]
  | cons p l ih => simp [pageEvents, List.filterMap_cons] at ih ⊢; exact ih

lemma pageEvents_fileBlock (fp : String × List ℕ) :
    pageEvents (fileBlock fp) = (sortPages fp.2).map (fun q => (fp.1, q)) := by
  rw [fileBlock]
  show pageEvents ([BEvent.load fp.1]
    ++ ((sortPages fp.2).map (BEvent.page fp.1) ++ [BEvent.destroy fp.1])) = _
  rw [pageEvents_append, pageEvents_append, pageEvents_map_page]
  simp [pageEvents]

lemma pageEvents_flatMap (l : List (String × List ℕ)) :
    pageEvents (l.flatMap fileBlock)
      = l.flatMap (fun fp => (sortPages fp.2).map (fun q => (fp.1, q))) := by
  induction l with
  | nil => simp [pageEvents]
  | cons fp l ih => simp [List.flatMap_cons, pageEvents_append, pageEvents_fileBlock, ih]

lemma map_pair_flatMap (g : String → ℕ → List ℕ) (fname : String) :
    ∀ l : List ℕ,
      (l.map (fun q => (fname, q))).flatMap (fun q => g q.1 q.2) = l.flatMap (g fname) := by
  intro l
  induction l with
  | nil => simp
  | cons p l ih => simp [ih]

lemma flatMap_pair_okOf (collab : Collab) :
    ∀ l : List (String × List ℕ),
      (l.flatMap (fun fp => (sortPages fp.2).map (fun q => (fp.1, q)))).flatMap
          (fun q => okOf collab q.1 q.2)
        = l.flatMap (fun fp => (sortPages fp.2).flatMap (okOf collab fp.1)) := by
  intro l
  induction l with
  | nil => simp
  | cons fp l ih =>
    simp [List.flatMap_cons, List.flatMap_append, ih, map_pair_flatMap (okOf collab) fp.1]

/-- C3: whenever the batch aborts (the authentication circuit breaker
fired), the pages actually submitted to the recognition collaborator are
exactly a prefix of the schedule ending at the first
authentication-failing page — no later page of any file is rendered or
submitted — and the retained results are exactly those produced by the
earlier pages of that prefix. -/
theorem batch_auth_abort (collab : Collab) (files : List (String × List ℕ))
    (st : BatchState) (h : runBatch collab files = (st, true)) :
    ∃ done fp rest,
      pageEvents st.trace = done ++ [fp] ∧
      authErrAt collab fp.1 fp.2 = true ∧
      (∀ q ∈ done, authErrAt collab q.1 q.2 = false) ∧
      schedule files = done ++ fp :: rest ∧
      st.results = done.flatMap (fun q => okOf collab q.1 q.2) := by
  rw [runBatch] at h
  obtain ⟨fs1, fname, pages, fs2, pre, p, post, hfiles, hsort, htr, hres, hp, hpre, hfs1⟩ :=
    processFiles_abort collab (files.filter (fun fp => !fp.2.isEmpty)) ⟨[], []⟩ (by rw [h])
  rw [h] at htr hres
  dsimp only at htr hres
  refine ⟨fs1.flatMap (fun fp => (sortPages fp.2).map (fun q => (fp.1, q)))
      ++ pre.map (fun q => (fname, q)),
    (fname, p),
    post.map (fun q => (fname, q))
      ++ fs2.flatMap (fun fp => (sortPages fp.2).map (fun q => (fp.1, q))),
    ?_, hp, ?_, ?_, ?_⟩
  · have h2 : pageEvents (BEvent.load fname :: (pre ++ [p]).map (BEvent.page fname))
        = pre.map (fun q => (fname, q)) ++ [(fname, p)] := by
      show pageEvents ([BEvent.load fname] ++ (pre ++ [p]).map (BEvent.page fname)) = _
      rw [pageEvents_append, pageEvents_map_page]
      simp [pageEvents]
    rw [htr]
    rw [List.nil_append, pageEvents_append, pageEvents_flatMap, h2]
    simp [List.append_assoc]
  · intro q hq
    rcases List.mem_append.1 hq with hq | hq
    · obtain ⟨fp', hfp', hq'⟩ := List.mem_flatMap.1 hq
      obtain ⟨x, hx, rfl⟩ := List.mem_map.1 hq'
      exact hfs1 fp' hfp' x hx
    · obtain ⟨x, hx, rfl⟩ := List.mem_map.1 hq
      exact hpre x hx
  · rw [schedule, hfiles, List.flatMap_append, List.flatMap_cons]
    dsimp only
    rw [hsort]
    simp [List.append_assoc]
  · rw [hres]
    rw [List.nil_append, List.flatMap_append, flatMap_pair_okOf, map_pair_flatMap]

/-- The recognition collaborator of the C3 scenario: authentication
failure on file 1 page 2, success elsewhere. -/
def demoCollab : Collab := fun f p =>
  if f = "file1" ∧ p = 2 then
    Except.error "AUTH_ERROR: The provided API Key is not valid."
  else if f = "file1" then Except.ok [10]
  else Except.ok [20]

/-- Witness for C3: two files with pages [1,2] and [1] selected and an
authentication failure on file 1 page 2 — the trace stops right after
that page (file 2 page 1 is never submitted) and exactly file 1 page 1's
results remain. -/
theorem batch_auth_abort_witness :
    ∃ done fp rest,
      pageEvents [BEvent.load "file1", BEvent.page "file1" 1, BEvent.page "file1" 2]
          = done ++ [fp] ∧
      authErrAt demoCollab fp.1 fp.2 = true ∧
      (∀ q ∈ done, authErrAt demoCollab q.1 q.2 = false) ∧
      schedule [("file1", [1, 2]), ("file2", [1])] = done ++ fp :: rest ∧
      [10] = done.flatMap (fun q => okOf demoCollab q.1 q.2) :=
  batch_auth_abort demoCollab [("file1", [1, 2]), ("file2", [1])]
    ⟨[10], [BEvent.load "file1", BEvent.page "file1" 1, BEvent.page "file1" 2]⟩ (by decide)

/-- C6 amended: on every run that completes without a batch-level
(authentication) abort, the trace is exactly the concatenation of the
files' blocks — each document loaded once, its sorted pages processed,
then released by exactly one `destroy` before the next file's `load`,
also when page-level errors occurred. When the batch aborts, the trace
ends inside the aborting file's block right after the failing page: that
file's document was loaded but is never destroyed (its `load` count
exceeds its `destroy` count gained over the completed prefix by one). -/
theorem destroy_discipline (collab : Collab) (files : List (String × List ℕ))
    (st : BatchState) (b : Bool) (h : runBatch collab files = (st, b)) :
    (b = false →
      st.trace = (files.filter (fun fp => !fp.2.isEmpty)).flatMap fileBlock) ∧
    (b = true → ∃ fs1 fname pages fs2 pre p post,
      files.filter (fun fp => !fp.2.isEmpty) = fs1 ++ (fname, pages) :: fs2 ∧
      sortPages pages = pre ++ p :: post ∧
      st.trace = fs1.flatMap fileBlock
        ++ BEvent.load fname :: (pre ++ [p]).map (BEvent.page fname) ∧
      st.trace.count (BEvent.load fname)
          = (fs1.flatMap fileBlock).count (BEvent.load fname) + 1 ∧
      st.trace.count (BEvent.destroy fname)
          = (fs1.flatMap fileBlock).count (BEvent.destroy fname) ∧
      authErrAt collab fname p = true) := by
  rw [runBatch] at h
  constructor
  · rintro rfl
    obtain ⟨ht, _, _⟩ := processFiles_ok collab (files.filter (fun fp => !fp.2.isEmpty))
      ⟨[], []⟩ (by rw [h])
    rw [h] at ht
    simpa using ht
  · rintro rfl
    obtain ⟨fs1, fname, pages, fs2, pre, p, post, hfiles, hsort, htr, _, hp, _, _⟩ :=
      processFiles_abort collab (files.filter (fun fp => !fp.2.isEmpty)) ⟨[], []⟩ (by rw [h])
    rw [h] at htr
    dsimp only at htr
    rw [List.nil_append] at htr
    refine ⟨fs1, fname, pages, fs2, pre, p, post, hfiles, hsort, htr, ?_, ?_, hp⟩
    · rw [htr, List.count_append, List.count_cons]
      have hz : (List.map (BEvent.page fname) (pre ++ [p])).count (BEvent.load fname) = 0 :=
        List.count_eq_zero.2 (by simp)
      rw [hz]
      simp
    · rw [htr, List.count_append, List.count_cons]
      have hz : (List.map (BEvent.page fname) (pre ++ [p])).count (BEvent.destroy fname) = 0 :=
        List.count_eq_zero.2 (by simp)
      rw [hz]
      simp

/-- A collaborator that always fails authentication. -/
def authFailCollab : Collab := fun _ _ =>
  Except.error "AUTH_ERROR: The provided API Key is not valid."

/-- C6 counterexample: with an authentication failure on the very first
page, the batch aborts and the loaded document of file "a" is never
released — its `load` appears once in the trace and its `destroy` zero
times, refuting "each document loaded is released exactly once ... on
every control path including ... batch-level error" paths. -/
theorem destroy_skipped_counterexample :
    (runBatch authFailCollab [("a", [1])]).1.trace.count (BEvent.load "a") = 1 ∧
    (runBatch authFailCollab [("a", [1])]).1.trace.count (BEvent.destroy "a") = 0 ∧
    (runBatch authFailCollab [("a", [1])]).2 = true := by
  decide

/-- A collaborator that always succeeds with one product. -/
def okCollab : Collab := fun _ _ => Except.ok [7]

/-- Witness for the amended C6: a successful run over one file with pages
{2,1} produces exactly the file's block — load, sorted pages, one
destroy. -/
theorem destroy_discipline_witness :
    ((false : Bool) = false →
      (⟨[7, 7], [BEvent.load "a", BEvent.page "a" 1, BEvent.page "a" 2,
          BEvent.destroy "a"]⟩ : BatchState).trace
        = ([("a", [2, 1])].filter (fun fp => !fp.2.isEmpty)).flatMap fileBlock) ∧
    ((false : Bool) = true → ∃ fs1 fname pages fs2 pre p post,
      [("a", [2, 1])].filter (fun fp => !fp.2.isEmpty) = fs1 ++ (fname, pages) :: fs2 ∧
      sortPages pages = pre ++ p :: post ∧
      (⟨[7, 7], [BEvent.load "a", BEvent.page "a" 1, BEvent.page "a" 2,
          BEvent.destroy "a"]⟩ : BatchState).trace = fs1.flatMap fileBlock
        ++ BEvent.load fname :: (pre ++ [p]).map (BEvent.page fname) ∧
      (⟨[7, 7], [BEvent.load "a", BEvent.page "a" 1, BEvent.page "a" 2,
          BEvent.destroy "a"]⟩ : BatchState).trace.count (BEvent.load fname)
          = (fs1.flatMap fileBlock).count (BEvent.load fname) + 1 ∧
      (⟨[7, 7], [BEvent.load "a", BEvent.page "a" 1, BEvent.page "a" 2,
          BEvent.destroy "a"]⟩ : BatchState).trace.count (BEvent.destroy fname)
          = (fs1.flatMap fileBlock).count (BEvent.destroy fname) ∧
      authErrAt okCollab fname p = true) :=
  destroy_discipline okCollab [("a", [2, 1])]
    ⟨[7, 7], [BEvent.load "a", BEvent.page "a" 1, BEvent.page "a" 2, BEvent.destroy "a"]⟩
    false (by decide)
